import Mathlib

/-!
Verification of the parallel batch policy-optimization core
(`sandbox/adam/parallel/batch_polopt.py`, class `ParallelBatchPolopt`).

Shallow embedding conventions:
* Python floats (shared `mp.RawValue('d')` cells, numpy sums) are modelled as
  exact rationals `ℚ`; integer cells (`mp.RawValue('i')`) as `ℕ`.
* A worker's local batch of sampled paths is a `WorkerBatch`: per-path reward
  sequences, per-path first discounted returns (`path["returns"][0]`), the
  per-step entropy values and the validity mask used for recurrent policies.
* The barrier/lock protocol of `log_diagnostics` serializes the non-leader
  additions: any concurrent execution is equivalent to the leader's overwrite
  followed by the non-leaders' locked additions in some sequential order.  We
  therefore model one aggregation round as a fold over an arbitrary
  permutation of the non-leaders' local statistics.
* Fallible numpy reductions (`np.min`/`np.max` on an empty list raise) return
  `Option`.
-/

/-- local batch of one worker: for each sampled path its reward sequence, its
first discounted return, plus the per-step entropies and validity mask of the
whole batch (used by the entropy reductions). -/
structure WorkerBatch where
  rewards : List (List ℚ)
  disc0 : List ℚ
  ents : List ℚ
  valids : List Bool
deriving DecidableEq

/-- the local reductions computed by each worker at the top of
`log_diagnostics` (lines 194-208). -/
structure LocalStats where
  sum_discounted_return : ℚ
  sum_return : ℚ
  num_traj : ℕ
  num_steps : ℕ
  max_return : ℚ
  min_return : ℚ
  sum_ent : ℚ
  num_valids : ℕ
deriving DecidableEq

/-- `undiscounted_returns = [sum(path["rewards"]) for path in paths]` (line 196). -/
def undiscountedReturns (b : WorkerBatch) : List ℚ :=
  b.rewards.map (fun p => p.sum)

/-- `np.min`: fails (raises) on an empty list, otherwise the least element. -/
def listMin : List ℚ → Option ℚ
  | [] => none
  | x :: xs => some (xs.foldl min x)

/-- `np.max`: fails (raises) on an empty list, otherwise the greatest element. -/
def listMax : List ℚ → Option ℚ
  | [] => none
  | x :: xs => some (xs.foldl max x)

/-- the local reductions of `log_diagnostics` lines 194-208: sums/counts over
the worker's own paths; `np.min`/`np.max` of the undiscounted returns raise on
an empty batch, so the result is `none` exactly when the worker sampled no
path.  For a recurrent policy the entropy is weighted by the validity mask and
`num_valids` is the mask total; otherwise `num_valids = 0` (line 204). -/
def localStats (recurrent : Bool) (b : WorkerBatch) : Option LocalStats :=
  match listMin (undiscountedReturns b), listMax (undiscountedReturns b) with
  | some mn, some mx =>
    some
      { sum_discounted_return := b.disc0.sum
        sum_return := (undiscountedReturns b).sum
        num_traj := (undiscountedReturns b).length
        num_steps := (b.rewards.map (fun p => p.length)).sum
        max_return := mx
        min_return := mn
        sum_ent :=
          if recurrent then
            (List.zipWith (fun e v => if v then e else 0) b.ents b.valids).sum
          else b.ents.sum
        num_valids := if recurrent then b.valids.countP id else 0 }
  | _, _ => none

/-- the shared cells allocated by `_init_par_objs_batchpolopt` (lines 100-109).
`n_steps_collected` and `baselines` are *not* created there — they are `none`
unless some other code appends them to the `SimpleContainer`. -/
structure SharedCells where
  sum_discounted_return : ℚ
  sum_return : ℚ
  num_traj : ℕ
  max_return : ℚ
  min_return : ℚ
  num_steps : ℕ
  num_valids : ℕ
  sum_ent : ℚ
  n_steps_collected : Option ℚ
  baselines : Option (List ℚ)
deriving DecidableEq

/-- the leader's unconditional overwrite of the shared cells
(`log_diagnostics` lines 211-218); every aggregate cell is replaced, the
previous iteration's values do not survive. -/
def leaderWrite (s : SharedCells) (l : LocalStats) : SharedCells :=
  { s with
    sum_discounted_return := l.sum_discounted_return
    sum_return := l.sum_return
    num_traj := l.num_traj
    min_return := l.min_return
    max_return := l.max_return
    sum_ent := l.sum_ent
    num_steps := l.num_steps
    num_valids := l.num_valids }

/-- one non-leader's additions into the shared cells, performed under the lock
(`log_diagnostics` lines 222-232): sums and counts are added, max/min are
updated by compare-and-replace. -/
def lockedAdd (s : SharedCells) (l : LocalStats) : SharedCells :=
  { s with
    sum_discounted_return := s.sum_discounted_return + l.sum_discounted_return
    sum_return := s.sum_return + l.sum_return
    num_traj := s.num_traj + l.num_traj
    num_steps := s.num_steps + l.num_steps
    num_valids := s.num_valids + l.num_valids
    max_return := if l.max_return > s.max_return then l.max_return else s.max_return
    min_return := if l.min_return < s.min_return then l.min_return else s.min_return
    sum_ent := s.sum_ent + l.sum_ent }

/-- one full diagnostics aggregation round: leader overwrite (before barrier
A), then the non-leaders' locked additions in the order they acquire the lock
(after barrier A, before barrier B). -/
def aggregateRound (prior : SharedCells) (leader : LocalStats)
    (others : List LocalStats) : SharedCells :=
  others.foldl lockedAdd (leaderWrite prior leader)

/-- the leader's entropy normalization (`log_diagnostics` lines 247-250):
divide the aggregated entropy sum by `num_valids` for a recurrent policy and
by `num_steps` otherwise. -/
def derived_ent (recurrent : Bool) (s : SharedCells) : ℚ :=
  if recurrent then s.sum_ent / (s.num_valids : ℚ)
  else s.sum_ent / (s.num_steps : ℚ)

/-! ## Object state of `ParallelBatchPolopt` -/

/-- `par_data = SimpleContainer(rank=None, avg_fac=1. / self.n_parallel)`
(line 99).  `db` is referenced by `log_diagnostics` line 241 but never
assigned anywhere in the repository. -/
structure ParData where
  rank : Option ℕ
  avg_fac : ℚ
  db : Option (ℕ × ℕ)
deriving DecidableEq

/-- `mgr_objs` (lines 110-113): the single lock and the pair of cyclic
diagnostics barriers.  `barriers_avgfac` is referenced by `set_avg_fac` but
never created by `_init_par_objs_batchpolopt`. -/
structure MgrObjs where
  barriers_dgnstc : ℕ
  barriers_avgfac : Option ℕ
deriving DecidableEq

/-- the triple assigned to `self._par_objs` (line 114). -/
structure ParObjs where
  par_data : ParData
  shareds : SharedCells
  mgr_objs : MgrObjs
deriving DecidableEq

/-- the constructor arguments of `ParallelBatchPolopt.__init__` that the
modelled methods consume. -/
structure AlgoParams where
  n_itr : ℕ
  start_itr : ℕ
  batch_size : ℕ
  n_parallel : ℕ
  plot : Bool
  pause_for_plot : Bool
  store_paths : Bool
  cpu_assignments : Option (List ℕ)
  seed : ℤ
deriving DecidableEq

/-- the attribute state of a `ParallelBatchPolopt` instance.  `_par_objs` is
assigned by `_init_par_objs_batchpolopt` (line 114); `_par_data` and `work`
are read by `set_avg_fac` (line 282) and `log_diagnostics` (line 241) but no
operation in the repository ever assigns them. -/
structure Algo where
  n_itr : ℕ
  current_itr : ℕ
  batch_size : ℕ
  n_parallel : ℕ
  plot : Bool
  pause_for_plot : Bool
  store_paths : Bool
  cpu_assignments : Option (List ℕ)
  seed : ℤ
  worker_batch_size : ℕ
  _par_objs : Option ParObjs
  _par_data : Option ParObjs
  work : Option ℕ
deriving DecidableEq

/-- `ParallelBatchPolopt.__init__` (lines 23-86): stores the hyperparameters;
no parallel objects exist yet, and the attributes `_par_data` and `work` are
never created at all. -/
def initBatchPolopt (p : AlgoParams) : Algo :=
  { n_itr := p.n_itr
    current_itr := p.start_itr
    batch_size := p.batch_size
    n_parallel := p.n_parallel
    plot := p.plot
    pause_for_plot := p.pause_for_plot
    store_paths := p.store_paths
    cpu_assignments := p.cpu_assignments
    seed := p.seed
    worker_batch_size := p.batch_size / p.n_parallel
    _par_objs := none
    _par_data := none
    work := none }

/-- `_init_par_objs_batchpolopt` (lines 94-115): allocates the shared cells
(`mp.RawValue` cells are zero-initialized), the lock and the two diagnostics
barriers, and assigns the triple to `self._par_objs`.  It does not create
`n_steps_collected`, `barriers_avgfac`, `baselines`, `db`, and it does not
assign `self._par_data` or `self.work`. -/
def init_par_objs_batchpolopt (a : Algo) : Algo :=
  { a with
    _par_objs := some
      { par_data := { rank := none, avg_fac := 1 / (a.n_parallel : ℚ), db := none }
        shareds :=
          { sum_discounted_return := 0, sum_return := 0, num_traj := 0
            max_return := 0, min_return := 0, num_steps := 0, num_valids := 0
            sum_ent := 0, n_steps_collected := none, baselines := none }
        mgr_objs := { barriers_dgnstc := 2, barriers_avgfac := none } } }

/-- how far `set_avg_fac` gets before either failing an attribute lookup or
reaching its barrier-synchronized accumulation phase. -/
inductive SetAvgFacOutcome
  | failedAttrLookup (attr : String)
  | reachedBarrierPhase
deriving DecidableEq

/-- `set_avg_fac` (lines 281-294).  Its first statement is
`par_data, shareds, mgr_objs = self._par_data` — note `_par_data`, not the
`_par_objs` attribute that initialization assigns — so the attribute lookup
is the first thing executed, before any shared cell or optimizer state is
touched.  The barrier phase is reachable only if some external code assigned
`_par_data`; nothing in the repository does. -/
def set_avg_fac (a : Algo) (_n_steps_collected : ℚ) : Algo × SetAvgFacOutcome :=
  match a._par_data with
  | none => (a, .failedAttrLookup "_par_data")
  | some t =>
    match t.par_data.rank with
    | some 0 =>
      match t.shareds.n_steps_collected with
      | none => (a, .failedAttrLookup "n_steps_collected")
      | some _ =>
        match t.mgr_objs.barriers_avgfac with
        | none => (a, .failedAttrLookup "barriers_avgfac")
        | some _ => (a, .reachedBarrierPhase)
    | _ =>
      match t.mgr_objs.barriers_avgfac with
      | none => (a, .failedAttrLookup "barriers_avgfac")
      | some _ => (a, .reachedBarrierPhase)

/-- the steps a single call of `log_diagnostics` performs, in program order. -/
inductive DiagStep
  | localReduce
  | leaderOverwrite
  | barrierA
  | lockedAdds
  | barrierB
  | line241Assign
  | derivedStatsLog
deriving DecidableEq

/-- `log_diagnostics` (lines 191-261) for a worker of the given rank: local
reductions, then the two-phase barrier round (leader overwrite before barrier
A; non-leader locked additions between the barriers), then — unconditionally,
after barrier B — line 241:
`shareds.baselines[par_data.db[0]:par_data.db[1]] = dgnstc_data[:self.work]`.
Python evaluates the right-hand side first, so the `self.work` attribute
lookup runs first; on failure the call aborts with the steps executed so far
and the name of the missing attribute, and the leader's derived-statistics
block (lines 243-261) is not reached. -/
def log_diagnostics_run (a : Algo) (rank : ℕ) : List DiagStep × Option String :=
  match a._par_objs with
  | none => ([], some "_par_objs")
  | some t =>
    let pre : List DiagStep :=
      DiagStep.localReduce ::
        (if rank = 0 then [DiagStep.leaderOverwrite, DiagStep.barrierA]
         else [DiagStep.barrierA, DiagStep.lockedAdds]) ++ [DiagStep.barrierB]
    match a.work with
    | none => (pre ++ [DiagStep.line241Assign], some "work")
    | some _ =>
      match t.shareds.baselines with
      | none => (pre ++ [DiagStep.line241Assign], some "baselines")
      | some _ =>
        match t.par_data.db with
        | none => (pre ++ [DiagStep.line241Assign], some "db")
        | some _ =>
          (pre ++ [DiagStep.line241Assign]
            ++ (if rank = 0 then [DiagStep.derivedStatsLog] else []), none)

/-! ## Affinity and rank assignment -/

/-- `_set_affinity` (lines 299-309): with an explicit assignment table the
process is pinned to the single entry at index `rank % len(table)` (an empty
table makes `rank % 0` raise); otherwise to the single CPU index
`rank % cpu_count`. -/
def set_affinity_cpus (cpu_assignments : Option (List ℕ)) (cpu_count : ℕ)
    (rank : ℕ) : Option (List ℕ) :=
  match cpu_assignments with
  | some table =>
    if 0 < table.length then some [table.getD (rank % table.length) 0] else none
  | none => if 0 < cpu_count then some [rank % cpu_count] else none

/-- the externally visible effects of `set_rank` (lines 273-279). -/
structure RankEffects where
  affinity : List ℕ
  baseline_rank : ℕ
  optimizer_rank : ℕ
  seedUsed : ℤ
deriving DecidableEq

/-- `set_rank(rank)` (lines 273-279): destructures `self._par_objs`, stores
the rank in `par_data`, pins the CPU affinity, propagates the rank to the
baseline and the optimizer, and seeds the process-local generator with
`self.seed + rank`.  Failures (missing `_par_objs`, invalid affinity)
propagate as exceptions, modelled as `none`. -/
def set_rank_run (a : Algo) (cpu_count : ℕ) (rank : ℕ) :
    Option (Algo × RankEffects) :=
  match a._par_objs with
  | none => none
  | some t =>
    match set_affinity_cpus a.cpu_assignments cpu_count rank with
    | none => none
    | some aff =>
      let t' : ParObjs := { t with par_data := { t.par_data with rank := some rank } }
      let eff : RankEffects :=
        { affinity := aff
          baseline_rank := rank
          optimizer_rank := rank
          seedUsed := a.seed + rank }
      some ({ a with _par_objs := some t' }, eff)

/-! ## Control flow of `_train` -/

/-- the operations `_train` (lines 155-185) performs, abstracted as trace
events; phase bodies are the collaborator calls made at each step. -/
inductive Phase
  | setRankStep
  | sample (itr : ℕ)
  | shareStepCount (itr : ℕ)
  | processSamples (itr : ℕ)
  | logDiagnostics (itr : ℕ)
  | optimizePolicy (itr : ℕ)
  | buildSnapshot (itr : ℕ)
  | fitBaseline (itr : ℕ)
  | attachPaths (itr : ℕ)
  | saveItrParams (itr : ℕ)
  | dumpTabular (itr : ℕ)
  | updatePlot (itr : ℕ)
  | pausePlot (itr : ℕ)
deriving DecidableEq

/-- the body of one iteration of `_train`'s loop (lines 158-185), in program
order: sampling, the averaging-factor round, sample processing, the
diagnostics round, the policy optimization; then — for rank 0 only — the
snapshot is built (`get_itr_snapshot`, line 166); then every rank fits its
baseline (line 168); then rank 0 optionally attaches the stored paths,
persists the snapshot (`save_itr_params`, line 177), dumps the tabular log
(guarded a second time by `rank == 0`, line 179) and, when plotting is
enabled (line 181), updates the plot and optionally pauses. -/
def iterEvents (rank : ℕ) (plot pause_for_plot store_paths : Bool)
    (itr : ℕ) : List Phase :=
  [Phase.sample itr, Phase.shareStepCount itr, Phase.processSamples itr,
   Phase.logDiagnostics itr, Phase.optimizePolicy itr]
  ++ (if rank = 0 then [Phase.buildSnapshot itr] else [])
  ++ [Phase.fitBaseline itr]
  ++ (if rank = 0 then
        (if store_paths then [Phase.attachPaths itr] else [])
        ++ [Phase.saveItrParams itr]
        ++ (if rank = 0 then [Phase.dumpTabular itr] else [])
        ++ (if plot ∧ rank = 0 then
              Phase.updatePlot itr ::
                (if pause_for_plot then [Phase.pausePlot itr] else [])
            else [])
      else [])

/-- `_train(rank)` (lines 155-186): `set_rank`, then the per-iteration body
for `itr` in `range(current_itr, n_itr)`. -/
def train_run (rank : ℕ) (plot pause_for_plot store_paths : Bool)
    (current_itr n_itr : ℕ) : List Phase :=
  Phase.setRankStep ::
    (List.range' current_itr (n_itr - current_itr)).flatMap
      (iterEvents rank plot pause_for_plot store_paths)

/-- recognizer for the snapshot-persistence call `logger.save_itr_params`. -/
def isSaveEvent : Phase → Bool
  | Phase.saveItrParams _ => true
  | _ => false

/-- the per-iteration phase order stated by the amended claim C7: the
snapshot is built by the leader after `OPTIMIZE` and *before* `FIT_BASELINE`;
only the persistence part of the checkpoint follows `FIT_BASELINE`. -/
def specIterOrder (rank : ℕ) (plot pause_for_plot store_paths : Bool)
    (itr : ℕ) : List Phase :=
  [Phase.sample itr, Phase.shareStepCount itr, Phase.processSamples itr,
   Phase.logDiagnostics itr, Phase.optimizePolicy itr]
  ++ (if rank = 0 then [Phase.buildSnapshot itr] else [])
  ++ [Phase.fitBaseline itr]
  ++ (if rank = 0 then
        (if store_paths then [Phase.attachPaths itr] else [])
        ++ [Phase.saveItrParams itr, Phase.dumpTabular itr]
        ++ (if plot then
              Phase.updatePlot itr ::
                (if pause_for_plot then [Phase.pausePlot itr] else [])
            else [])
      else [])

/-! ## Lock discipline of the shared-cell writes -/

/-- kind of mutation a statement performs on a shared scalar cell. -/
inductive WriteKind
  | overwriteW
  | addW
  | maxUpdate
  | minUpdate
deriving DecidableEq

/-- one statement of the source that mutates a shared scalar cell: which
cell, how, by whom, and whether the statement executes inside the
`with mgr_objs.lock` block. -/
structure SharedWrite where
  cell : String
  kind : WriteKind
  byLeader : Bool
  underLock : Bool
deriving DecidableEq

/-- the leader's shared-cell writes in `log_diagnostics` (lines 211-218):
plain overwrites, not under the lock. -/
def diagLeaderWrites : List SharedWrite :=
  [{ cell := "sum_discounted_return", kind := .overwriteW, byLeader := true, underLock := false },
   { cell := "sum_return", kind := .overwriteW, byLeader := true, underLock := false },
   { cell := "num_traj", kind := .overwriteW, byLeader := true, underLock := false },
   { cell := "min_return", kind := .overwriteW, byLeader := true, underLock := false },
   { cell := "max_return", kind := .overwriteW, byLeader := true, underLock := false },
   { cell := "sum_ent", kind := .overwriteW, byLeader := true, underLock := false },
   { cell := "num_steps", kind := .overwriteW, byLeader := true, underLock := false },
   { cell := "num_valids", kind := .overwriteW, byLeader := true, underLock := false }]

/-- a non-leader's shared-cell writes in `log_diagnostics` (lines 222-232):
all of them inside the `with mgr_objs.lock` block. -/
def diagNonleaderWrites : List SharedWrite :=
  [{ cell := "sum_discounted_return", kind := .addW, byLeader := false, underLock := true },
   { cell := "sum_return", kind := .addW, byLeader := false, underLock := true },
   { cell := "num_traj", kind := .addW, byLeader := false, underLock := true },
   { cell := "num_steps", kind := .addW, byLeader := false, underLock := true },
   { cell := "num_valids", kind := .addW, byLeader := false, underLock := true },
   { cell := "max_return", kind := .maxUpdate, byLeader := false, underLock := true },
   { cell := "min_return", kind := .minUpdate, byLeader := false, underLock := true },
   { cell := "sum_ent", kind := .addW, byLeader := false, underLock := true }]

/-- the leader's shared-cell write in `set_avg_fac` (line 285): an overwrite,
not under the lock. -/
def avgFacLeaderWrites : List SharedWrite :=
  [{ cell := "n_steps_collected", kind := .overwriteW, byLeader := true, underLock := false }]

/-- a non-leader's shared-cell write in `set_avg_fac` (line 289):
`shareds.n_steps_collected.value += n_steps_collected`, and the statement is
*not* inside any `with ... lock` block. -/
def avgFacNonleaderWrites : List SharedWrite :=
  [{ cell := "n_steps_collected", kind := .addW, byLeader := false, underLock := false }]

/-- every statement in the two aggregation rounds that mutates a shared
scalar cell. -/
def allSharedWrites : List SharedWrite :=
  diagLeaderWrites ++ diagNonleaderWrites ++ avgFacLeaderWrites ++ avgFacNonleaderWrites

/-! ## Helper lemmas -/

theorem localStats_fields {recurrent : Bool} {b : WorkerBatch} {l : LocalStats}
    (h : localStats recurrent b = some l) :
    l.sum_return = (undiscountedReturns b).sum ∧
    l.num_traj = (undiscountedReturns b).length ∧
    l.num_steps = (b.rewards.map (fun p => p.length)).sum ∧
    listMax (undiscountedReturns b) = some l.max_return ∧
    listMin (undiscountedReturns b) = some l.min_return ∧
    l.sum_ent = (if recurrent then
        (List.zipWith (fun e v => if v then e else 0) b.ents b.valids).sum
      else b.ents.sum) ∧
    l.num_valids = (if recurrent then b.valids.countP id else 0) := by
  cases hu : undiscountedReturns b with
  | nil => simp [localStats, hu, listMin, listMax] at h
  | cons x xs =>
    simp only [localStats, hu, listMin, listMax] at h
    cases h
    simp [hu, listMin, listMax]

theorem foldl_lockedAdd_sum_return :
    ∀ (ls : List LocalStats) (s : SharedCells),
      (ls.foldl lockedAdd s).sum_return
        = s.sum_return + (ls.map LocalStats.sum_return).sum := by
  intro ls
  induction ls with
  | nil => intro s; simp
  | cons l rest ih => intro s; simp [List.foldl_cons, ih, lockedAdd]; ring

theorem foldl_lockedAdd_num_traj :
    ∀ (ls : List LocalStats) (s : SharedCells),
      (ls.foldl lockedAdd s).num_traj
        = s.num_traj + (ls.map LocalStats.num_traj).sum := by
  intro ls
  induction ls with
  | nil => intro s; simp
  | cons l rest ih => intro s; simp [List.foldl_cons, ih, lockedAdd]; omega

theorem foldl_lockedAdd_num_steps :
    ∀ (ls : List LocalStats) (s : SharedCells),
      (ls.foldl lockedAdd s).num_steps
        = s.num_steps + (ls.map LocalStats.num_steps).sum := by
  intro ls
  induction ls with
  | nil => intro s; simp
  | cons l rest ih => intro s; simp [List.foldl_cons, ih, lockedAdd]; omega

theorem foldl_lockedAdd_num_valids :
    ∀ (ls : List LocalStats) (s : SharedCells),
      (ls.foldl lockedAdd s).num_valids
        = s.num_valids + (ls.map LocalStats.num_valids).sum := by
  intro ls
  induction ls with
  | nil => intro s; simp
  | cons l rest ih => intro s; simp [List.foldl_cons, ih, lockedAdd]; omega

theorem foldl_lockedAdd_sum_ent :
    ∀ (ls : List LocalStats) (s : SharedCells),
      (ls.foldl lockedAdd s).sum_ent
        = s.sum_ent + (ls.map LocalStats.sum_ent).sum := by
  intro ls
  induction ls with
  | nil => intro s; simp
  | cons l rest ih => intro s; simp [List.foldl_cons, ih, lockedAdd]; ring

theorem if_gt_eq_max (a b : ℚ) : (if b > a then b else a) = max a b := by
  split
  · exact (max_eq_right (le_of_lt (by assumption))).symm
  · exact (max_eq_left (not_lt.mp (by assumption))).symm

theorem if_lt_eq_min (a b : ℚ) : (if b < a then b else a) = min a b := by
  split
  · exact (min_eq_right (le_of_lt (by assumption))).symm
  · exact (min_eq_left (not_lt.mp (by assumption))).symm

theorem foldl_lockedAdd_max_return :
    ∀ (ls : List LocalStats) (s : SharedCells),
      (ls.foldl lockedAdd s).max_return
        = (ls.map LocalStats.max_return).foldl max s.max_return := by
  intro ls
  induction ls with
  | nil => intro s; simp
  | cons l rest ih =>
    intro s
    simp only [List.foldl_cons, List.map_cons, ih, lockedAdd]
    rw [if_gt_eq_max]

theorem foldl_lockedAdd_min_return :
    ∀ (ls : List LocalStats) (s : SharedCells),
      (ls.foldl lockedAdd s).min_return
        = (ls.map LocalStats.min_return).foldl min s.min_return := by
  intro ls
  induction ls with
  | nil => intro s; simp
  | cons l rest ih =>
    intro s
    simp only [List.foldl_cons, List.map_cons, ih, lockedAdd]
    rw [if_lt_eq_min]

theorem le_foldl_max : ∀ (l : List ℚ) (a : ℚ), a ≤ l.foldl max a := by
  intro l
  induction l with
  | nil => intro a; exact le_refl a
  | cons x xs ih =>
    intro a
    exact le_trans (le_max_left a x) (ih (max a x))

theorem mem_le_foldl_max : ∀ (l : List ℚ) (a x : ℚ), x ∈ l → x ≤ l.foldl max a := by
  intro l
  induction l with
  | nil => intro a x hx; cases hx
  | cons y ys ih =>
    intro a x hx
    rcases List.mem_cons.mp hx with h | h
    · subst h
      exact le_trans (le_max_right a x) (le_foldl_max ys (max a x))
    · exact ih (max a y) x h

theorem foldl_max_mem : ∀ (l : List ℚ) (a : ℚ), l.foldl max a = a ∨ l.foldl max a ∈ l := by
  intro l
  induction l with
  | nil => intro a; exact Or.inl rfl
  | cons x xs ih =>
    intro a
    rcases ih (max a x) with h | h
    · rw [List.foldl_cons, h]
      rcases max_choice a x with h' | h'
      · exact Or.inl h'
      · exact Or.inr (by rw [h']; exact List.mem_cons_self x xs)
    · exact Or.inr (List.mem_cons_of_mem x h)

theorem foldl_min_le : ∀ (l : List ℚ) (a : ℚ), l.foldl min a ≤ a := by
  intro l
  induction l with
  | nil => intro a; exact le_refl a
  | cons x xs ih =>
    intro a
    exact le_trans (ih (min a x)) (min_le_left a x)

theorem foldl_min_le_mem : ∀ (l : List ℚ) (a x : ℚ), x ∈ l → l.foldl min a ≤ x := by
  intro l
  induction l with
  | nil => intro a x hx; cases hx
  | cons y ys ih =>
    intro a x hx
    rcases List.mem_cons.mp hx with h | h
    · subst h
      exact le_trans (foldl_min_le ys (min a x)) (min_le_right a x)
    · exact ih (min a y) x h

theorem foldl_min_mem : ∀ (l : List ℚ) (a : ℚ), l.foldl min a = a ∨ l.foldl min a ∈ l := by
  intro l
  induction l with
  | nil => intro a; exact Or.inl rfl
  | cons x xs ih =>
    intro a
    rcases ih (min a x) with h | h
    · rw [List.foldl_cons, h]
      rcases min_choice a x with h' | h'
      · exact Or.inl h'
      · exact Or.inr (by rw [h']; exact List.mem_cons_self x xs)
    · exact Or.inr (List.mem_cons_of_mem x h)

theorem listMax_mem {l : List ℚ} {m : ℚ} (h : listMax l = some m) : m ∈ l := by
  cases l with
  | nil => cases h
  | cons x xs =>
    simp only [listMax, Option.some.injEq] at h
    subst h
    rcases foldl_max_mem xs x with h' | h'
    · rw [h']; exact List.mem_cons_self x xs
    · exact List.mem_cons_of_mem x h'

theorem le_listMax {l : List ℚ} {m x : ℚ} (h : listMax l = some m) (hx : x ∈ l) :
    x ≤ m := by
  cases l with
  | nil => cases hx
  | cons y ys =>
    simp only [listMax, Option.some.injEq] at h
    subst h
    rcases List.mem_cons.mp hx with h' | h'
    · exact h' ▸ le_foldl_max ys y
    · exact mem_le_foldl_max ys y x h'

theorem listMin_mem {l : List ℚ} {m : ℚ} (h : listMin l = some m) : m ∈ l := by
  cases l with
  | nil => cases h
  | cons x xs =>
    simp only [listMin, Option.some.injEq] at h
    subst h
    rcases foldl_min_mem xs x with h' | h'
    · rw [h']; exact List.mem_cons_self x xs
    · exact List.mem_cons_of_mem x h'

theorem listMin_le {l : List ℚ} {m x : ℚ} (h : listMin l = some m) (hx : x ∈ l) :
    m ≤ x := by
  cases l with
  | nil => cases hx
  | cons y ys =>
    simp only [listMin, Option.some.injEq] at h
    subst h
    rcases List.mem_cons.mp hx with h' | h'
    · exact h' ▸ foldl_min_le ys y
    · exact foldl_min_le_mem ys y x h'

theorem forall₂_map_eq {α : Type} {P : WorkerBatch → LocalStats → Prop}
    (f : LocalStats → α) (g : WorkerBatch → α)
    (hfg : ∀ b l, P b l → f l = g b) :
    ∀ {bs : List WorkerBatch} {ls : List LocalStats},
      List.Forall₂ P bs ls → ls.map f = bs.map g := by
  intro bs ls h
  induction h with
  | nil => rfl
  | cons h₁ _ ih => simp [hfg _ _ h₁, ih]

theorem forall₂_mem_right {P : WorkerBatch → LocalStats → Prop}
    {bs : List WorkerBatch} {ls : List LocalStats}
    (h : List.Forall₂ P bs ls) {l : LocalStats} (hl : l ∈ ls) :
    ∃ b ∈ bs, P b l := by
  induction h with
  | nil => cases hl
  | cons h₁ _ ih =>
    rcases List.mem_cons.mp hl with h' | h'
    · exact ⟨_, List.mem_cons_self _ _, h' ▸ h₁⟩
    · rcases ih h' with ⟨b, hb, hpb⟩
      exact ⟨b, List.mem_cons_of_mem _ hb, hpb⟩

theorem forall₂_mem_left {P : WorkerBatch → LocalStats → Prop}
    {bs : List WorkerBatch} {ls : List LocalStats}
    (h : List.Forall₂ P bs ls) {b : WorkerBatch} (hb : b ∈ bs) :
    ∃ l ∈ ls, P b l := by
  induction h with
  | nil => cases hb
  | cons h₁ _ ih =>
    rcases List.mem_cons.mp hb with h' | h'
    · exact ⟨_, List.mem_cons_self _ _, h' ▸ h₁⟩
    · rcases ih h' with ⟨l, hl, hpl⟩
      exact ⟨l, List.mem_cons_of_mem _ hl, hpl⟩

/-! ## Claims -/

/-- C1: for every worker count `N ≥ 1` (one leader batch plus any list of
non-leader batches, each batch nonempty so that the local `np.min`/`np.max`
reductions are defined) and every order in which the non-leaders perform
their locked additions after the leader's overwrite, the shared `sum_return`,
`num_traj` and `num_steps` after the round equal the exact sums of those
quantities over the union of all workers' local batches, each worker counted
exactly once. -/
theorem claim_C1_aggregate_sums
    (recurrent : Bool) (prior : SharedCells)
    (b0 : WorkerBatch) (bs : List WorkerBatch)
    (l0 : LocalStats) (ls order : List LocalStats)
    (h0 : localStats recurrent b0 = some l0)
    (hbs : List.Forall₂ (fun b l => localStats recurrent b = some l) bs ls)
    (hperm : order.Perm ls) :
    (aggregateRound prior l0 order).sum_return
        = (((b0 :: bs).map undiscountedReturns).flatten).sum ∧
    (aggregateRound prior l0 order).num_traj
        = (((b0 :: bs).map undiscountedReturns).flatten).length ∧
    (aggregateRound prior l0 order).num_steps
        = ((((b0 :: bs).map (fun b => b.rewards)).flatten).map (fun p => p.length)).sum := by
  obtain ⟨hs0, ht0, hst0, -, -, -, -⟩ := localStats_fields h0
  have hmap1 : ls.map LocalStats.sum_return
      = bs.map (fun b => (undiscountedReturns b).sum) :=
    forall₂_map_eq LocalStats.sum_return (fun b => (undiscountedReturns b).sum)
      (fun b l h => (localStats_fields h).1) hbs
  have hmap2 : ls.map LocalStats.num_traj
      = bs.map (fun b => (undiscountedReturns b).length) :=
    forall₂_map_eq LocalStats.num_traj (fun b => (undiscountedReturns b).length)
      (fun b l h => (localStats_fields h).2.1) hbs
  have hmap3 : ls.map LocalStats.num_steps
      = bs.map (fun b => (b.rewards.map (fun p => p.length)).sum) :=
    forall₂_map_eq LocalStats.num_steps
      (fun b => (b.rewards.map (fun p => p.length)).sum)
      (fun b l h => (localStats_fields h).2.2.1) hbs
  refine ⟨?_, ?_, ?_⟩
  · rw [aggregateRound, foldl_lockedAdd_sum_return]
    rw [show (leaderWrite prior l0).sum_return = l0.sum_return from rfl]
    rw [(hperm.map LocalStats.sum_return).sum_eq, hmap1]
    rw [List.sum_flatten, List.map_map, hs0]
    simp [Function.comp_def]
  · rw [aggregateRound, foldl_lockedAdd_num_traj]
    rw [show (leaderWrite prior l0).num_traj = l0.num_traj from rfl]
    rw [(hperm.map LocalStats.num_traj).sum_eq, hmap2]
    rw [List.length_flatten, List.map_map, ht0]
    simp [Function.comp_def]
  · rw [aggregateRound, foldl_lockedAdd_num_steps]
    rw [show (leaderWrite prior l0).num_steps = l0.num_steps from rfl]
    rw [(hperm.map LocalStats.num_steps).sum_eq, hmap3]
    rw [List.map_flatten, List.sum_flatten, List.map_map, List.map_map, hst0]
    simp [Function.comp_def]

/-- witness for C1: worker 0 holds trajectories with returns `[1, 2]`, worker
1 holds `[3]`; the aggregated sums over the union are obtained. -/
theorem claim_C1_aggregate_sums_witness :
    (aggregateRound ⟨0, 0, 0, 0, 0, 0, 0, 0, none, none⟩
        ⟨3, 3, 2, 2, 2, 1, 0, 0⟩ [⟨3, 3, 1, 1, 3, 3, 0, 0⟩]).sum_return
        = ((([⟨[[1], [2]], [1, 2], [], []⟩, ⟨[[3]], [3], [], []⟩] :
              List WorkerBatch).map undiscountedReturns).flatten).sum ∧
    (aggregateRound ⟨0, 0, 0, 0, 0, 0, 0, 0, none, none⟩
        ⟨3, 3, 2, 2, 2, 1, 0, 0⟩ [⟨3, 3, 1, 1, 3, 3, 0, 0⟩]).num_traj
        = ((([⟨[[1], [2]], [1, 2], [], []⟩, ⟨[[3]], [3], [], []⟩] :
              List WorkerBatch).map undiscountedReturns).flatten).length ∧
    (aggregateRound ⟨0, 0, 0, 0, 0, 0, 0, 0, none, none⟩
        ⟨3, 3, 2, 2, 2, 1, 0, 0⟩ [⟨3, 3, 1, 1, 3, 3, 0, 0⟩]).num_steps
        = (((([⟨[[1], [2]], [1, 2], [], []⟩, ⟨[[3]], [3], [], []⟩] :
              List WorkerBatch).map (fun b => b.rewards)).flatten).map
                (fun p => p.length)).sum :=
  claim_C1_aggregate_sums false ⟨0, 0, 0, 0, 0, 0, 0, 0, none, none⟩
    ⟨[[1], [2]], [1, 2], [], []⟩ [⟨[[3]], [3], [], []⟩]
    ⟨3, 3, 2, 2, 2, 1, 0, 0⟩ [⟨3, 3, 1, 1, 3, 3, 0, 0⟩] [⟨3, 3, 1, 1, 3, 3, 0, 0⟩]
    (by norm_num [localStats, undiscountedReturns, listMin, listMax])
    (List.Forall₂.cons
      (by norm_num [localStats, undiscountedReturns, listMin, listMax])
      List.Forall₂.nil)
    (List.Perm.refl _)

/-- C5: for every worker count `N ≥ 1` (each worker's batch nonempty) and
every order in which the non-leaders acquire the lock after barrier A, the
shared `max_return` and `min_return` after barrier B are the true maximum and
minimum over the union of all workers' per-trajectory undiscounted returns;
the statement holds for an arbitrary permutation `order` of the non-leaders'
statistics, so the result is independent of the arrival order at the lock. -/
theorem claim_C5_aggregate_max_min
    (recurrent : Bool) (prior : SharedCells)
    (b0 : WorkerBatch) (bs : List WorkerBatch)
    (l0 : LocalStats) (ls order : List LocalStats)
    (h0 : localStats recurrent b0 = some l0)
    (hbs : List.Forall₂ (fun b l => localStats recurrent b = some l) bs ls)
    (hperm : order.Perm ls) :
    ((aggregateRound prior l0 order).max_return
        ∈ ((b0 :: bs).map undiscountedReturns).flatten ∧
      ∀ x ∈ ((b0 :: bs).map undiscountedReturns).flatten,
        x ≤ (aggregateRound prior l0 order).max_return) ∧
    ((aggregateRound prior l0 order).min_return
        ∈ ((b0 :: bs).map undiscountedReturns).flatten ∧
      ∀ x ∈ ((b0 :: bs).map undiscountedReturns).flatten,
        (aggregateRound prior l0 order).min_return ≤ x) := by
  obtain ⟨-, -, -, hmax0, hmin0, -, -⟩ := localStats_fields h0
  have hMx : (aggregateRound prior l0 order).max_return
      = (order.map LocalStats.max_return).foldl max l0.max_return := by
    rw [aggregateRound, foldl_lockedAdd_max_return]
    rfl
  have hMn : (aggregateRound prior l0 order).min_return
      = (order.map LocalStats.min_return).foldl min l0.min_return := by
    rw [aggregateRound, foldl_lockedAdd_min_return]
    rfl
  have hb0mem : undiscountedReturns b0 ∈ (b0 :: bs).map undiscountedReturns :=
    List.mem_map_of_mem undiscountedReturns (List.mem_cons_self b0 bs)
  refine ⟨⟨?_, ?_⟩, ⟨?_, ?_⟩⟩
  · rw [hMx]
    rcases foldl_max_mem (order.map LocalStats.max_return) l0.max_return with h | h
    · rw [h]
      exact List.mem_flatten_of_mem hb0mem (listMax_mem hmax0)
    · obtain ⟨l, hlo, hlv⟩ := List.mem_map.mp h
      have hlls : l ∈ ls := (hperm.mem_iff).mp hlo
      obtain ⟨b, hbbs, hbl⟩ := forall₂_mem_right hbs hlls
      obtain ⟨-, -, -, hbmax, -, -, -⟩ := localStats_fields hbl
      have : l.max_return ∈ undiscountedReturns b := listMax_mem hbmax
      exact hlv ▸ List.mem_flatten_of_mem
        (List.mem_map_of_mem undiscountedReturns (List.mem_cons_of_mem b0 hbbs)) this
  · intro x hx
    rw [hMx]
    obtain ⟨lst, hlst, hxl⟩ := List.mem_flatten.mp hx
    obtain ⟨b, hbmem, hbv⟩ := List.mem_map.mp hlst
    rcases List.mem_cons.mp hbmem with hb | hb
    · subst hb
      have hxle : x ≤ l0.max_return := le_listMax hmax0 (hbv ▸ hxl)
      exact le_trans hxle (le_foldl_max _ _)
    · obtain ⟨l, hlls, hbl⟩ := forall₂_mem_left hbs hb
      obtain ⟨-, -, -, hbmax, -, -, -⟩ := localStats_fields hbl
      have hxle : x ≤ l.max_return := le_listMax hbmax (hbv ▸ hxl)
      have hlo : l.max_return ∈ order.map LocalStats.max_return :=
        (hperm.map LocalStats.max_return).mem_iff.mpr
          (List.mem_map_of_mem LocalStats.max_return hlls)
      exact le_trans hxle (mem_le_foldl_max _ _ _ hlo)
  · rw [hMn]
    rcases foldl_min_mem (order.map LocalStats.min_return) l0.min_return with h | h
    · rw [h]
      exact List.mem_flatten_of_mem hb0mem (listMin_mem hmin0)
    · obtain ⟨l, hlo, hlv⟩ := List.mem_map.mp h
      have hlls : l ∈ ls := (hperm.mem_iff).mp hlo
      obtain ⟨b, hbbs, hbl⟩ := forall₂_mem_right hbs hlls
      obtain ⟨-, -, -, -, hbmin, -, -⟩ := localStats_fields hbl
      have : l.min_return ∈ undiscountedReturns b := listMin_mem hbmin
      exact hlv ▸ List.mem_flatten_of_mem
        (List.mem_map_of_mem undiscountedReturns (List.mem_cons_of_mem b0 hbbs)) this
  · intro x hx
    rw [hMn]
    obtain ⟨lst, hlst, hxl⟩ := List.mem_flatten.mp hx
    obtain ⟨b, hbmem, hbv⟩ := List.mem_map.mp hlst
    rcases List.mem_cons.mp hbmem with hb | hb
    · subst hb
      have hxle : l0.min_return ≤ x := listMin_le hmin0 (hbv ▸ hxl)
      exact le_trans (foldl_min_le _ _) hxle
    · obtain ⟨l, hlls, hbl⟩ := forall₂_mem_left hbs hb
      obtain ⟨-, -, -, -, hbmin, -, -⟩ := localStats_fields hbl
      have hxle : l.min_return ≤ x := listMin_le hbmin (hbv ▸ hxl)
      have hlo : l.min_return ∈ order.map LocalStats.min_return :=
        (hperm.map LocalStats.min_return).mem_iff.mpr
          (List.mem_map_of_mem LocalStats.min_return hlls)
      exact le_trans (foldl_min_le_mem _ _ _ hlo) hxle

/-- witness for C5: with returns `[1, 2]` on the leader and `[3]` on the
non-leader, the aggregated `max_return` is an element of the union that
bounds it from above, and dually for `min_return`. -/
theorem claim_C5_aggregate_max_min_witness :
    ((aggregateRound ⟨0, 0, 0, 0, 0, 0, 0, 0, none, none⟩
        ⟨3, 3, 2, 2, 2, 1, 0, 0⟩ [⟨3, 3, 1, 1, 3, 3, 0, 0⟩]).max_return
        ∈ (([⟨[[1], [2]], [1, 2], [], []⟩, ⟨[[3]], [3], [], []⟩] :
            List WorkerBatch).map undiscountedReturns).flatten ∧
      ∀ x ∈ (([⟨[[1], [2]], [1, 2], [], []⟩, ⟨[[3]], [3], [], []⟩] :
            List WorkerBatch).map undiscountedReturns).flatten,
        x ≤ (aggregateRound ⟨0, 0, 0, 0, 0, 0, 0, 0, none, none⟩
          ⟨3, 3, 2, 2, 2, 1, 0, 0⟩ [⟨3, 3, 1, 1, 3, 3, 0, 0⟩]).max_return) ∧
    ((aggregateRound ⟨0, 0, 0, 0, 0, 0, 0, 0, none, none⟩
        ⟨3, 3, 2, 2, 2, 1, 0, 0⟩ [⟨3, 3, 1, 1, 3, 3, 0, 0⟩]).min_return
        ∈ (([⟨[[1], [2]], [1, 2], [], []⟩, ⟨[[3]], [3], [], []⟩] :
            List WorkerBatch).map undiscountedReturns).flatten ∧
      ∀ x ∈ (([⟨[[1], [2]], [1, 2], [], []⟩, ⟨[[3]], [3], [], []⟩] :
            List WorkerBatch).map undiscountedReturns).flatten,
        (aggregateRound ⟨0, 0, 0, 0, 0, 0, 0, 0, none, none⟩
          ⟨3, 3, 2, 2, 2, 1, 0, 0⟩ [⟨3, 3, 1, 1, 3, 3, 0, 0⟩]).min_return ≤ x) :=
  claim_C5_aggregate_max_min false ⟨0, 0, 0, 0, 0, 0, 0, 0, none, none⟩
    ⟨[[1], [2]], [1, 2], [], []⟩ [⟨[[3]], [3], [], []⟩]
    ⟨3, 3, 2, 2, 2, 1, 0, 0⟩ [⟨3, 3, 1, 1, 3, 3, 0, 0⟩] [⟨3, 3, 1, 1, 3, 3, 0, 0⟩]
    (by norm_num [localStats, undiscountedReturns, listMin, listMax])
    (List.Forall₂.cons
      (by norm_num [localStats, undiscountedReturns, listMin, listMax])
      List.Forall₂.nil)
    (List.Perm.refl _)

/-- C6: the leader's entropy normalization divides the aggregated entropy sum
by the aggregated `num_valids` (the sum of the workers' validity-mask totals)
exactly when the policy is recurrent, and by the aggregated `num_steps`
exactly when it is not; and there are shared states with
`num_valids ≠ num_steps` on which the two denominators give different
results. -/
theorem claim_C6_entropy_denominator :
    (∀ (prior : SharedCells) (l0 : LocalStats) (order : List LocalStats),
        derived_ent true (aggregateRound prior l0 order)
          = (l0.sum_ent + (order.map LocalStats.sum_ent).sum)
            / ((l0.num_valids + (order.map LocalStats.num_valids).sum : ℕ) : ℚ)) ∧
    (∀ (prior : SharedCells) (l0 : LocalStats) (order : List LocalStats),
        derived_ent false (aggregateRound prior l0 order)
          = (l0.sum_ent + (order.map LocalStats.sum_ent).sum)
            / ((l0.num_steps + (order.map LocalStats.num_steps).sum : ℕ) : ℚ)) ∧
    (∃ s : SharedCells, s.num_valids ≠ s.num_steps ∧
        derived_ent true s ≠ derived_ent false s) := by
  refine ⟨?_, ?_, ?_⟩
  · intro prior l0 order
    rw [derived_ent, if_pos rfl, aggregateRound,
      foldl_lockedAdd_sum_ent, foldl_lockedAdd_num_valids]
    rfl
  · intro prior l0 order
    rw [derived_ent, if_neg (by simp), aggregateRound,
      foldl_lockedAdd_sum_ent, foldl_lockedAdd_num_steps]
    rfl
  · refine ⟨⟨0, 0, 0, 0, 0, 2, 1, 1, none, none⟩, ?_, ?_⟩
    · norm_num
    · norm_num [derived_ent]

/-- C3: on every state produced by constructing a `ParallelBatchPolopt` and
running `_init_par_objs_batchpolopt`, `set_avg_fac` fails its very first
statement — the lookup of the never-assigned attribute `_par_data`
(initialization assigns `_par_objs`) — and the state is returned unchanged:
no shared cell and no optimizer state is mutated. -/
theorem claim_C3_set_avg_fac_always_fails (p : AlgoParams) (n : ℚ) :
    set_avg_fac (init_par_objs_batchpolopt (initBatchPolopt p)) n
      = (init_par_objs_batchpolopt (initBatchPolopt p),
         SetAvgFacOutcome.failedAttrLookup "_par_data") := rfl

/-- C2 is a code bug: `set_avg_fac` is specified to give worker `i` the
averaging factor `steps_i / total_steps` and push it into the optimizer, but
on the concrete state built by `__init__` (`n_parallel = 2`) followed by
`_init_par_objs_batchpolopt`, the call with `n_steps_collected = 2500`
aborts at the `_par_data` attribute lookup before computing anything. -/
theorem claim_C2_avg_fac_failing_input :
    set_avg_fac (init_par_objs_batchpolopt (initBatchPolopt
        { n_itr := 500, start_itr := 0, batch_size := 5000, n_parallel := 2,
          plot := false, pause_for_plot := false, store_paths := false,
          cpu_assignments := none, seed := 1 })) 2500
      = (init_par_objs_batchpolopt (initBatchPolopt
          { n_itr := 500, start_itr := 0, batch_size := 5000, n_parallel := 2,
            plot := false, pause_for_plot := false, store_paths := false,
            cpu_assignments := none, seed := 1 }),
         SetAvgFacOutcome.failedAttrLookup "_par_data") := rfl

/-- counterexample to C4 as stated: the non-leader addition
`shareds.n_steps_collected.value += n_steps_collected` of `set_avg_fac`
(line 289) is a shared-aggregate addition by a rank ≠ 0 worker that is not
performed under the mutual-exclusion lock. -/
theorem claim_C4_unlocked_addition_counterexample :
    ({ cell := "n_steps_collected", kind := WriteKind.addW,
       byLeader := false, underLock := false } : SharedWrite) ∈ allSharedWrites ∧
    ({ cell := "n_steps_collected", kind := WriteKind.addW,
       byLeader := false, underLock := false } : SharedWrite).kind = WriteKind.addW ∧
    ({ cell := "n_steps_collected", kind := WriteKind.addW,
       byLeader := false, underLock := false } : SharedWrite).byLeader = false ∧
    ({ cell := "n_steps_collected", kind := WriteKind.addW,
       byLeader := false, underLock := false } : SharedWrite).underLock = false := by
  refine ⟨?_, rfl, rfl, rfl⟩
  decide

/-- C4 amended: in the diagnostics aggregation round every non-leader
mutation of a shared aggregate scalar (additions and the max/min
compare-and-replace updates) is performed while holding the lock, and the
leader's writes are plain overwrites outside the lock; in the
averaging-factor round, however, the non-leader addition to
`n_steps_collected` is performed without the lock. -/
theorem claim_C4_lock_discipline :
    diagNonleaderWrites.all (fun w => !w.byLeader && w.underLock) = true ∧
    diagLeaderWrites.all
      (fun w => w.byLeader && w.kind == WriteKind.overwriteW && !w.underLock) = true ∧
    avgFacLeaderWrites.all
      (fun w => w.byLeader && w.kind == WriteKind.overwriteW && !w.underLock) = true ∧
    avgFacNonleaderWrites.all
      (fun w => !w.byLeader && w.kind == WriteKind.addW && !w.underLock) = true := by
  refine ⟨?_, ?_, ?_, ?_⟩ <;> decide

/-- counterexample to C7 as stated: in a one-iteration run of the leader,
`get_itr_snapshot` (the snapshot build of the `CHECKPOINT` phase) is executed
*before* `baseline.fit` (`FIT_BASELINE`), not after it; only the persistence
(`save_itr_params`) follows `FIT_BASELINE`. -/
theorem claim_C7_snapshot_before_fit_counterexample :
    train_run 0 false false false 0 1
      = [Phase.setRankStep, Phase.sample 0, Phase.shareStepCount 0,
         Phase.processSamples 0, Phase.logDiagnostics 0, Phase.optimizePolicy 0,
         Phase.buildSnapshot 0, Phase.fitBaseline 0, Phase.saveItrParams 0,
         Phase.dumpTabular 0] ∧
    (train_run 0 false false false 0 1).indexOf (Phase.buildSnapshot 0)
      < (train_run 0 false false false 0 1).indexOf (Phase.fitBaseline 0) := by
  refine ⟨?_, ?_⟩ <;> decide

/-- C7 amended: every worker executes, for each `itr` from `current_itr` to
`n_itr - 1` in increasing order and strictly sequentially, the phases
`SAMPLE`, `SHARE_STEP_COUNT`, `PROCESS_SAMPLES`, `LOG_DIAGNOSTICS`,
`OPTIMIZE`, then — leader only — the snapshot build, then `FIT_BASELINE`,
and then — leader only — the rest of `CHECKPOINT` (optionally attaching the
stored paths, persisting the snapshot, dumping the log, optionally plotting
and pausing). -/
theorem claim_C7_phase_order (rank : ℕ) (plot pause_for_plot store_paths : Bool)
    (current_itr n_itr : ℕ) :
    train_run rank plot pause_for_plot store_paths current_itr n_itr
      = Phase.setRankStep ::
          (List.range' current_itr (n_itr - current_itr)).flatMap
            (specIterOrder rank plot pause_for_plot store_paths) := by
  have hfun : iterEvents rank plot pause_for_plot store_paths
      = specIterOrder rank plot pause_for_plot store_paths := by
    funext itr
    by_cases hr : rank = 0 <;> by_cases hp : plot <;>
      by_cases hq : pause_for_plot <;> by_cases hs : store_paths <;>
      simp [iterEvents, specIterOrder, hr, hp, hq, hs]
  rw [train_run, hfun]

theorem countP_flatMap_events (l : List ℕ) (f : ℕ → List Phase) (p : Phase → Bool) :
    (l.flatMap f).countP p = (l.map (fun a => (f a).countP p)).sum := by
  rw [List.flatMap_def, List.countP_flatten, List.map_map]
  rfl

theorem count_flatMap_events (l : List ℕ) (f : ℕ → List Phase) (x : Phase) :
    (l.flatMap f).count x = (l.map (fun a => (f a).count x)).sum := by
  rw [List.flatMap_def, List.count_flatten, List.map_map]
  rfl

theorem iterEvents_countP_save (rank : ℕ) (p q s : Bool) (itr : ℕ) :
    (iterEvents rank p q s itr).countP isSaveEvent
      = if rank = 0 then 1 else 0 := by
  by_cases hr : rank = 0 <;> by_cases hp : p <;> by_cases hq : q <;>
    by_cases hs : s <;> simp [iterEvents, hr, hp, hq, hs, isSaveEvent]

theorem iterEvents_count_save (rank : ℕ) (p q s : Bool) (itr t : ℕ) :
    (iterEvents rank p q s itr).count (Phase.saveItrParams t)
      = if rank = 0 ∧ itr = t then 1 else 0 := by
  by_cases hr : rank = 0 <;> by_cases hit : itr = t <;> by_cases hp : p <;>
    by_cases hq : q <;> by_cases hs : s <;>
    simp [iterEvents, hr, hit, hp, hq, hs, List.count_cons, List.count_append]

theorem sum_map_const_range' (v : ℕ) :
    ∀ (s k : ℕ), ((List.range' s k).map (fun _ => v)).sum = k * v := by
  intro s k
  induction k generalizing s with
  | zero => simp
  | succ k ih =>
    rw [List.range'_succ]
    simp only [List.map_cons, List.sum_cons, ih]
    ring

theorem sum_map_indicator_range' (t v : ℕ) :
    ∀ (s k : ℕ),
      ((List.range' s k).map (fun i => if i = t then v else 0)).sum
        = if s ≤ t ∧ t < s + k then v else 0 := by
  intro s k
  induction k generalizing s with
  | zero =>
    simp only [List.range'_zero, List.map_nil, List.sum_nil]
    split_ifs <;> omega
  | succ k ih =>
    rw [List.range'_succ]
    simp only [List.map_cons, List.sum_cons, ih]
    split_ifs <;> omega

/-- C8: across a run from `current_itr` to `n_itr - 1`, the snapshot
persistence call `logger.save_itr_params` appears exactly
`n_itr - current_itr` times in the rank-0 worker's trace and zero times in
every other worker's trace, and each iteration index is persisted exactly
once, by rank 0 only. -/
theorem claim_C8_checkpoint_persistence_counts
    (rank : ℕ) (plot pause_for_plot store_paths : Bool) (c n : ℕ) :
    ((train_run rank plot pause_for_plot store_paths c n).countP isSaveEvent
        = if rank = 0 then n - c else 0) ∧
    (∀ itr : ℕ,
      (train_run rank plot pause_for_plot store_paths c n).count
          (Phase.saveItrParams itr)
        = if rank = 0 ∧ c ≤ itr ∧ itr < n then 1 else 0) := by
  constructor
  · rw [train_run, List.countP_cons_of_neg _ _ (by simp [isSaveEvent]),
      countP_flatMap_events]
    simp only [iterEvents_countP_save]
    rw [sum_map_const_range']
    split_ifs <;> simp
  · intro itr
    rw [train_run, List.count_cons_of_ne (by simp), count_flatMap_events]
    simp only [iterEvents_count_save]
    by_cases hr : rank = 0
    · simp only [hr, true_and]
      rw [sum_map_indicator_range']
      split_ifs <;> omega
    · simp only [hr, false_and, if_false]
      rw [show ((List.range' c (n - c)).map (fun _ => (0 : ℕ))).sum
          = (n - c) * 0 from sum_map_const_range' 0 c (n - c)]
      simp

/-- C9: `set_rank` pins the calling worker to the single CPU index
`rank % cpu_count` when no explicit assignment table is configured, to the
table entry at index `rank % table_length` when a table is configured,
propagates the rank to the baseline and the optimizer, and seeds the
process-local generator with `seed + rank`. -/
theorem claim_C9_rank_affinity_seed (p : AlgoParams) (cpu_count rank : ℕ) :
    (p.cpu_assignments = none → 0 < cpu_count →
      (set_rank_run (init_par_objs_batchpolopt (initBatchPolopt p))
          cpu_count rank).map (fun x => x.2)
        = some { affinity := [rank % cpu_count], baseline_rank := rank,
                 optimizer_rank := rank, seedUsed := p.seed + rank }) ∧
    (∀ table : List ℕ, p.cpu_assignments = some table → 0 < table.length →
      (set_rank_run (init_par_objs_batchpolopt (initBatchPolopt p))
          cpu_count rank).map (fun x => x.2)
        = some { affinity := [table.getD (rank % table.length) 0],
                 baseline_rank := rank, optimizer_rank := rank,
                 seedUsed := p.seed + rank }) := by
  constructor
  · intro hnone hcc
    simp [set_rank_run, set_affinity_cpus, init_par_objs_batchpolopt,
      initBatchPolopt, hnone, hcc]
  · intro table htable hlen
    simp [set_rank_run, set_affinity_cpus, init_par_objs_batchpolopt,
      initBatchPolopt, htable, hlen]

/-- witness for C9: with four CPUs and no table, rank 2 is pinned to CPU
`2 % 4`; with the two-entry table `[10, 20]`, rank 3 is pinned to entry
`3 % 2 = 1`, i.e. CPU 20; the seeds are `1 + 2` and `1 + 3`. -/
theorem claim_C9_rank_affinity_seed_witness :
    ((set_rank_run (init_par_objs_batchpolopt (initBatchPolopt
          { n_itr := 500, start_itr := 0, batch_size := 5000, n_parallel := 4,
            plot := false, pause_for_plot := false, store_paths := false,
            cpu_assignments := none, seed := 1 })) 4 2).map (fun x => x.2)
        = some { affinity := [2 % 4], baseline_rank := 2,
                 optimizer_rank := 2, seedUsed := (1 : ℤ) + (2 : ℕ) }) ∧
    ((set_rank_run (init_par_objs_batchpolopt (initBatchPolopt
          { n_itr := 500, start_itr := 0, batch_size := 5000, n_parallel := 4,
            plot := false, pause_for_plot := false, store_paths := false,
            cpu_assignments := some [10, 20], seed := 1 })) 4 3).map (fun x => x.2)
        = some { affinity := [[10, 20].getD (3 % [10, 20].length) 0],
                 baseline_rank := 3, optimizer_rank := 3,
                 seedUsed := (1 : ℤ) + (3 : ℕ) }) :=
  ⟨(claim_C9_rank_affinity_seed
      { n_itr := 500, start_itr := 0, batch_size := 5000, n_parallel := 4,
        plot := false, pause_for_plot := false, store_paths := false,
        cpu_assignments := none, seed := 1 } 4 2).1 rfl (by decide),
   (claim_C9_rank_affinity_seed
      { n_itr := 500, start_itr := 0, batch_size := 5000, n_parallel := 4,
        plot := false, pause_for_plot := false, store_paths := false,
        cpu_assignments := some [10, 20], seed := 1 } 4 3).2
     [10, 20] rfl (by decide)⟩

/-- counterexample to C10 as stated: line 241 of `log_diagnostics`
(`shareds.baselines[par_data.db[0]:par_data.db[1]] = dgnstc_data[:self.work]`)
is not unreachable — the leader's very first call executes it (right after
barrier B). -/
theorem claim_C10_line241_executed_counterexample :
    DiagStep.line241Assign ∈
      (log_diagnostics_run (init_par_objs_batchpolopt (initBatchPolopt
        { n_itr := 500, start_itr := 0, batch_size := 5000, n_parallel := 2,
          plot := false, pause_for_plot := false, store_paths := false,
          cpu_assignments := none, seed := 1 })) 0).1 := by
  decide

/-- C10 amended: the statement at line 241 is executed by *every* call of
`log_diagnostics` on a state produced by initialization, by any rank; the
call then aborts with an attribute-lookup failure on the never-assigned
`self.work`, so the leader's derived-statistics block after it is never
reached. -/
theorem claim_C10_line241_always_executed (p : AlgoParams) (rank : ℕ) :
    DiagStep.line241Assign ∈
      (log_diagnostics_run (init_par_objs_batchpolopt (initBatchPolopt p)) rank).1 ∧
    (log_diagnostics_run (init_par_objs_batchpolopt (initBatchPolopt p)) rank).2
      = some "work" ∧
    (log_diagnostics_run (init_par_objs_batchpolopt (initBatchPolopt p)) rank).1.count
        DiagStep.derivedStatsLog = 0 := by
  by_cases hr : rank = 0 <;>
    simp [log_diagnostics_run, init_par_objs_batchpolopt, initBatchPolopt, hr,
      List.count_cons, List.count_append]
